import Mathlib

/-!
Verification development for `l10n_es_aeat/wizard/aeat_certificate_password.py`:
a shallow embedding of the module's two context-manager helpers
(`pfx_to_pem`, `pfx_to_crt`) and the wizard method `get_keys`, together
with models of the external collaborators they call
(`cryptography`'s PKCS#12 loader and PEM serializers, `tempfile`,
`os.path` / `os.makedirs`, `base64`).

The filesystem is explicit state (`FS`); Python exceptions are explicit
values (`PyExc`) threaded through `Except`; machine behavior that the
source delegates to libraries is modelled by their documented contracts
(a PKCS#12 load succeeds exactly on the correct passphrase; a named
temporary file gets a name that does not yet exist in the directory).
-/

/-- Decrypted private-key material, abstract (the code never inspects it). -/
structure PrivKey where
  keyId : Nat
deriving DecidableEq

/-- Leaf certificate material, abstract (the code never inspects it). -/
structure Cert where
  certId : Nat
deriving DecidableEq

/-- Model of a Python value appearing in an exception `args` tuple
(`FileExistsError` carries an errno int and a message string). -/
inductive PyVal
  | int (n : Int)
  | str (s : String)
deriving DecidableEq

/-- Model of a raised Python exception: its class name and its `args` tuple. -/
structure PyExc where
  kind : String
  args : List PyVal
deriving DecidableEq

/-- Model of `bytes(s, "utf-8")`: a fixed injective encoding of strings to
byte sequences (code points stand in for the utf-8 bytes; the source only
ever compares passphrase bytes for equality). -/
def strToBytes (s : String) : List Nat :=
  s.toList.map Char.toNat

/-- The `pfx_password` argument of `pfx_to_pem` / `pfx_to_crt`: Python lets a
caller pass either `str` or `bytes`; the source normalizes with an
`isinstance(pfx_password, str)` check. -/
inductive PwdInput
  | str (s : String)
  | bytes (b : List Nat)
deriving DecidableEq

/-- The `isinstance(pfx_password, str)` normalization at the top of both
context managers. -/
def normalizePwd : PwdInput → List Nat
  | .str s => strToBytes s
  | .bytes b => b

/-- The `file` bytes handed to `pkcs12.load_key_and_certificates`: either a
well-formed PKCS#12 container holding a key, a leaf certificate and the
passphrase that decrypts it, or malformed bytes. -/
inductive ArchiveBytes
  | valid (key : PrivKey) (cert : Cert) (password : List Nat)
  | malformed
deriving DecidableEq

/-- Model of `cryptography.hazmat.primitives.serialization.Encoding`. -/
inductive EncodingT
  | PEM
  | DER
deriving DecidableEq

/-- Model of `cryptography.hazmat.primitives.serialization.PrivateFormat`. -/
inductive PrivateFormatT
  | TraditionalOpenSSL
  | PKCS8
deriving DecidableEq

/-- Model of the `encryption_algorithm` argument of `private_bytes`. -/
inductive EncAlgT
  | NoEncryption
  | BestAvailableEncryption
deriving DecidableEq

/-- Contents of a file on disk, as far as this module can produce them:
nothing yet (a freshly created temp file), a serialized private key
(remembering the encoding, format and encryption choices), or a
serialized certificate. -/
inductive SerializedBytes
  | empty
  | privBytes (key : PrivKey) (enc : EncodingT) (fmt : PrivateFormatT) (alg : EncAlgT)
  | certBytes (cert : Cert) (enc : EncodingT)
deriving DecidableEq

/-- Model of `key.private_bytes(...)`. -/
def PrivKey.private_bytes (k : PrivKey) (enc : EncodingT) (fmt : PrivateFormatT)
    (alg : EncAlgT) : SerializedBytes :=
  SerializedBytes.privBytes k enc fmt alg

/-- Model of `cert.public_bytes(...)`. -/
def Cert.public_bytes (c : Cert) (enc : EncodingT) : SerializedBytes :=
  SerializedBytes.certBytes c enc

/-- Model of reparsing a file as an unencrypted PEM private key
(`load_pem_private_key` with `password=None`): succeeds exactly on a
PEM-encoded, unencrypted private key. -/
def load_pem_private_key : SerializedBytes → Option PrivKey
  | .privBytes k .PEM _ .NoEncryption => some k
  | _ => none

/-- Model of reparsing a file as a PEM certificate
(`load_pem_x509_certificate`): succeeds exactly on a PEM-encoded
certificate. -/
def load_pem_x509_certificate : SerializedBytes → Option Cert
  | .certBytes c .PEM => some c
  | _ => none

/-- The `ValueError` raised by `pkcs12.load_key_and_certificates` on a wrong
passphrase. -/
def pkcs12PwdError : PyExc :=
  { kind := "ValueError", args := [PyVal.str "Invalid password or PKCS12 data"] }

/-- The `ValueError` raised by `pkcs12.load_key_and_certificates` on
malformed container bytes. -/
def pkcs12DataError : PyExc :=
  { kind := "ValueError", args := [PyVal.str "Could not deserialize PKCS12 data"] }

/-- Model of `pkcs12.load_key_and_certificates(file, password)`: on a valid
archive with the matching passphrase it returns the key, the leaf
certificate and the (here empty) additional-certificates list; otherwise
it raises `ValueError`. -/
def load_key_and_certificates (file : ArchiveBytes) (password : List Nat) :
    Except PyExc (PrivKey × Cert × List Cert) :=
  match file with
  | .valid k c pw =>
      if password = pw then Except.ok (k, c, []) else Except.error pkcs12PwdError
  | .malformed => Except.error pkcs12DataError

/-- A directory path, as the list of its components
(`os.path.join` on components is concatenation). -/
abbrev DirPath := List String

/-- The name a `tempfile.NamedTemporaryFile` call picked: the requested
name parts around the unique token the library chose. -/
structure TmpName where
  pfx : String
  counter : Nat
  sfx : String
deriving DecidableEq

/-- The on-disk file name the parts render to. -/
def TmpName.render (t : TmpName) : String :=
  t.pfx ++ toString t.counter ++ t.sfx

/-- A full path of a file created by `NamedTemporaryFile(dir=...)`:
the directory plus the unique file name. -/
abbrev FPath := DirPath × TmpName

/-- Filesystem state: the set of existing directories and the files with
their contents. -/
structure FS where
  dirs : List DirPath
  files : List (FPath × SerializedBytes)
deriving DecidableEq

/-- The largest unique-name token present among the files on disk. -/
def FS.maxCounter (fs : FS) : Nat :=
  fs.files.foldr (fun f m => max f.1.2.counter m) 0

/-- The unique-name token `NamedTemporaryFile` picks next: strictly larger
than every token on disk, so the chosen name exists nowhere in the
filesystem (the library's collision-freedom guarantee, which it
implements by O_EXCL probing). -/
def FS.freshCounter (fs : FS) : Nat :=
  fs.maxCounter + 1

/-- Model of `tempfile.NamedTemporaryFile(prefix..., suffix..., delete=False,
dir=directory)`: creates a new, uniquely named, empty file in `dir` and
returns its path. `delete=False` means nothing removes it later. -/
def namedTempFile (p sfx : String) (dir : DirPath) (fs : FS) : FPath × FS :=
  let path : FPath := (dir, { pfx := p, counter := fs.freshCounter, sfx := sfx })
  (path, { fs with files := (path, SerializedBytes.empty) :: fs.files })

/-- Model of `open(name, "wb")` followed by a single `write` and `close`:
replaces the contents of the file at `p`. -/
def FS.writeFile (fs : FS) (p : FPath) (c : SerializedBytes) : FS :=
  { fs with files := fs.files.map (fun f => if f.1 = p then (p, c) else f) }

/-- Reading a file back from disk. -/
def FS.readFile (fs : FS) (p : FPath) : Option SerializedBytes :=
  (fs.files.find? (fun f => decide (f.1 = p))).map Prod.snd

/-- Embedding of the `pfx_to_pem` context manager as used by `get_keys`
(the body runs to the `yield`; nothing follows the `yield`): normalize
the passphrase, create the named temp file `private_*.pem`, open it,
load the PKCS#12 archive, write the key as unencrypted
TraditionalOpenSSL PEM, and yield the path. A load failure propagates
after the temp file was already created, and `delete=False` leaves it. -/
def pfx_to_pem (file : ArchiveBytes) (pfx_password : PwdInput) (directory : DirPath)
    (fs : FS) : Except PyExc FPath × FS :=
  let pwd := normalizePwd pfx_password
  let (t_pem, fs1) := namedTempFile "private_" ".pem" directory fs
  match load_key_and_certificates file pwd with
  | Except.error e => (Except.error e, fs1)
  | Except.ok p12 =>
      let fs2 := fs1.writeFile t_pem
        (p12.1.private_bytes EncodingT.PEM PrivateFormatT.TraditionalOpenSSL
          EncAlgT.NoEncryption)
      (Except.ok t_pem, fs2)

/-- Embedding of the `pfx_to_crt` context manager as used by `get_keys`:
same shape as `pfx_to_pem` with name parts `public_*.crt` and the
certificate serialized as PEM. -/
def pfx_to_crt (file : ArchiveBytes) (pfx_password : PwdInput) (directory : DirPath)
    (fs : FS) : Except PyExc FPath × FS :=
  let pwd := normalizePwd pfx_password
  let (t_crt, fs1) := namedTempFile "public_" ".crt" directory fs
  match load_key_and_certificates file pwd with
  | Except.error e => (Except.error e, fs1)
  | Except.ok p12 =>
      let fs2 := fs1.writeFile t_crt (p12.2.1.public_bytes EncodingT.PEM)
      (Except.ok t_crt, fs2)

/-- Model of Python `int(s)` on a string: optional sign then decimal
digits; anything else raises `ValueError`. -/
def pyIntOfString (s : String) : Except PyExc Int :=
  let parts : Int × List Char :=
    match s.toList with
    | '-' :: rest => (-1, rest)
    | '+' :: rest => (1, rest)
    | cs => (1, cs)
  if parts.2 ≠ [] ∧ parts.2.all Char.isDigit then
    Except.ok (parts.1 * (parts.2.foldl (fun acc c => acc * 10 + (c.toNat - 48)) 0 : Nat))
  else
    Except.error
      { kind := "ValueError",
        args := [PyVal.str ("invalid literal for int() with base 10: " ++ s)] }

/-- `tuple(map(int, components))`: converts components left to right,
raising the first conversion failure. -/
def exceptMapInt : List String → Except PyExc (List Int)
  | [] => Except.ok []
  | s :: rest =>
      match pyIntOfString s with
      | Except.error e => Except.error e
      | Except.ok n =>
          match exceptMapInt rest with
          | Except.error e => Except.error e
          | Except.ok ns => Except.ok (n :: ns)

/-- Model of Python `str.split(".")` on the character list: splits at every
dot; the empty string yields one empty field. -/
def splitCharsOnDot : List Char → List (List Char)
  | [] => [[]]
  | c :: rest =>
      match splitCharsOnDot rest with
      | [] => if c = '.' then [[], [c]] else [[c]]
      | g :: gs => if c = '.' then [] :: g :: gs else (c :: g) :: gs

/-- Model of Python `version.split(".")`. -/
def splitOnDot (s : String) : List String :=
  (splitCharsOnDot s.toList).map List.asString

/-- `tuple(map(int, version.split(".")))` from lines 28 and 86. -/
def pyVersionTuple (v : String) : Except PyExc (List Int) :=
  exceptMapInt (splitOnDot v)

/-- Python tuple `<`: lexicographic comparison, a strict prefix being
smaller. -/
def tupleLt : List Int → List Int → Bool
  | [], [] => false
  | [], _ :: _ => true
  | _ :: _, [] => false
  | a :: as, b :: bs => if a < b then true else if b < a then false else tupleLt as bs

/-- The whole guard expression
`tuple(map(int, cryptography.__version__.split("."))) < (3, 0)` as it
appears at module level (line 28) and in `get_keys` (line 86): either a
verdict or the `ValueError` the conversion raised. -/
def cryptoVersionVerdict (v : String) : Except PyExc Bool :=
  match pyVersionTuple v with
  | Except.error e => Except.error e
  | Except.ok vt => Except.ok (tupleLt vt [3, 0])

/-- The stored base64 payload of the certificate record's `file` field:
the model keeps the decoded archive it encodes. -/
inductive B64Field
  | enc (a : ArchiveBytes)
deriving DecidableEq

/-- Model of `base64.decodebytes(record.file)` on a well-formed stored
payload. -/
def decodebytes : B64Field → ArchiveBytes
  | .enc a => a

/-- The `l10n.es.aeat.certificate` record `get_keys` works on: its
`folder` and base64 `file` fields, and the `private_key` / `public_key`
path fields the method assigns. -/
structure CertRecord where
  folder : String
  file : B64Field
  private_key : Option FPath
  public_key : Option FPath
deriving DecidableEq

/-- `os.path.join(os.path.abspath(config["data_dir"]), "certificates",
release.series, self.env.cr.dbname, record.folder)` from lines 78-84,
with `data_dir` already resolved to absolute components. -/
def certDirectory (data_dir : DirPath) (series dbname folder : String) : DirPath :=
  data_dir ++ ["certificates", series, dbname, folder]

/-- Every nonempty prefix of a path: the chain of ancestors `os.makedirs`
has to create. -/
def nonemptyPrefixes (p : DirPath) : List DirPath :=
  (List.range p.length).map (fun i => p.take (i + 1))

/-- Model of `os.makedirs(directory)` with the default `exist_ok=False`:
raises `FileExistsError` when the leaf directory already exists,
otherwise creates every missing ancestor and the leaf. -/
def makedirs (fs : FS) (p : DirPath) : Except PyExc FS :=
  if p ∈ fs.dirs then
    Except.error { kind := "FileExistsError", args := [PyVal.int 17, PyVal.str "File exists"] }
  else
    Except.ok
      { fs with dirs := fs.dirs ++ (nonemptyPrefixes p).filter (fun q => decide (q ∉ fs.dirs)) }

/-- The `except Exception` clause of `get_keys` (lines 97-100):
`if e.args: args = list(e.args)` then `raise ValidationError(args[-1])`.
With a non-empty `args` tuple this raises `ValidationError` carrying the
last element; with an empty tuple the local `args` was never assigned and
the `args[-1]` lookup itself raises `UnboundLocalError`. -/
def handleExc (e : PyExc) : PyExc :=
  match e.args.getLast? with
  | some a => { kind := "ValidationError", args := [a] }
  | none =>
      { kind := "UnboundLocalError",
        args := [PyVal.str "local variable args referenced before assignment"] }

/-- Steps of `get_keys` after `pfx_to_pem` succeeded, shared by `tryBlock`. -/
def afterPem (file : ArchiveBytes) (password : String) (directory : DirPath)
    (record : CertRecord) (fs : FS) (t_pem : FPath) :
    Except PyExc Unit × FS × CertRecord :=
  let record1 := { record with private_key := some t_pem }
  match pfx_to_crt file (PwdInput.str password) directory fs with
  | (Except.error e, fs2) => (Except.error e, fs2, record1)
  | (Except.ok t_crt, fs2) =>
      (Except.ok (), fs2, { record1 with public_key := some t_crt })

/-- The two `with` statements of `get_keys` (lines 93-96): extract the key,
record its path, extract the certificate, record its path. -/
def extractBoth (file : ArchiveBytes) (password : String) (directory : DirPath)
    (record : CertRecord) (fs : FS) : Except PyExc Unit × FS × CertRecord :=
  match pfx_to_pem file (PwdInput.str password) directory fs with
  | (Except.error e, fs1) => (Except.error e, fs1, record)
  | (Except.ok t_pem, fs1) => afterPem file password directory record fs1 t_pem

/-- The body of the `try` block of `get_keys` (lines 91-96). The
`interfere` hook is the filesystem activity of any concurrent invocation
in the window between the `os.path.exists` check and the `os.makedirs`
call; a single sequential invocation is `interfere = id`. -/
def tryBlock (file : ArchiveBytes) (password : String) (directory : DirPath)
    (record : CertRecord) (interfere : FS → FS) (fs : FS) :
    Except PyExc Unit × FS × CertRecord :=
  let doMake := directory ≠ [] ∧ directory ∉ fs.dirs
  let fs1 := interfere fs
  if doMake then
    match makedirs fs1 directory with
    | Except.error e => (Except.error e, fs1, record)
    | Except.ok fs2 => extractBoth file password directory record fs2
  else
    extractBoth file password directory record fs1

/-- What one `get_keys` invocation produced: the outcome (`ok` or the
exception that escaped the method), the final filesystem, and the final
record. -/
structure GetKeysResult where
  outcome : Except PyExc Unit
  fs : FS
  record : CertRecord

/-- Embedding of `get_keys` (lines 74-100): build the target directory
path, decode the stored base64 archive, re-check the cryptography
version (raising `UserError` below the floor and letting a version-parse
`ValueError` escape), then run the `try` block, converting any exception
it raises through the `except` clause. -/
def get_keys (data_dir : DirPath) (series dbname : String) (record : CertRecord)
    (password : String) (cryptoVersion : String) (interfere : FS → FS) (fs : FS) :
    GetKeysResult :=
  let directory := certDirectory data_dir series dbname record.folder
  let file := decodebytes record.file
  match pyVersionTuple cryptoVersion with
  | Except.error e => { outcome := Except.error e, fs := fs, record := record }
  | Except.ok vt =>
      if tupleLt vt [3, 0] then
        { outcome := Except.error
            { kind := "UserError",
              args := [PyVal.str
                "Cryptography version is not supported. Upgrade to 3.0.0 or greater."] },
          fs := fs, record := record }
      else
        match tryBlock file password directory record interfere fs with
        | (Except.ok u, fs1, record1) =>
            { outcome := Except.ok u, fs := fs1, record := record1 }
        | (Except.error e, fs1, record1) =>
            { outcome := Except.error (handleExc e), fs := fs1, record := record1 }

/-! ### Helper lemmas about the filesystem model -/

/-- Every file's unique-name token is bounded by the fold that computes the
maximum. -/
theorem counter_le_fold (l : List (FPath × SerializedBytes)) (f : FPath × SerializedBytes)
    (hf : f ∈ l) : f.1.2.counter ≤ l.foldr (fun g m => max g.1.2.counter m) 0 := by
  induction l with
  | nil => cases hf
  | cons g rest ih =>
      rcases List.mem_cons.mp hf with hf | hf
      · subst hf
        exact le_max_left _ _
      · exact le_trans (ih hf) (le_max_right _ _)

/-- The token `FS.freshCounter` picks belongs to no file on disk, so the
temp-file path built from it is new. -/
theorem fresh_not_mem (fs : FS) (dir : DirPath) (p s : String) :
    ∀ f ∈ fs.files, f.1 ≠ (dir, ⟨p, fs.freshCounter, s⟩) := by
  intro f hf heq
  have hle : f.1.2.counter ≤ fs.maxCounter := counter_le_fold fs.files f hf
  rw [heq] at hle
  exact absurd hle (by simp [FS.freshCounter])

/-- Writing to a path that no file in the list has leaves the list
unchanged. -/
theorem map_write_id (l : List (FPath × SerializedBytes)) (p : FPath) (c : SerializedBytes)
    (h : ∀ f ∈ l, f.1 ≠ p) :
    l.map (fun f => if f.1 = p then (p, c) else f) = l := by
  induction l with
  | nil => rfl
  | cons g rest ih =>
      have hg : g.1 ≠ p := h g (List.mem_cons_self g rest)
      simp only [List.map_cons, if_neg hg]
      rw [ih (fun f hf => h f (List.mem_cons_of_mem g hf))]

/-- Reading back the file at the head of the list. -/
theorem readFile_cons_self (d : List DirPath) (p : FPath) (c : SerializedBytes)
    (rest : List (FPath × SerializedBytes)) :
    FS.readFile { dirs := d, files := (p, c) :: rest } p = some c := by
  simp [FS.readFile, List.find?]

/-- Reading past a head entry with a different path. -/
theorem readFile_cons_ne (d : List DirPath) (q p : FPath) (c : SerializedBytes)
    (rest : List (FPath × SerializedBytes)) (h : q ≠ p) :
    FS.readFile { dirs := d, files := (q, c) :: rest } p =
      FS.readFile { dirs := d, files := rest } p := by
  simp [FS.readFile, List.find?, h]

/-! ### Shape lemmas for the two context managers -/

/-- `pfx_to_pem` on a valid archive and the matching passphrase: yields the
fresh `private_*.pem` path and writes the key as unencrypted
TraditionalOpenSSL PEM, pushing exactly one new file. -/
theorem pfx_to_pem_ok (k : PrivKey) (c : Cert) (pw : List Nat) (pwd : PwdInput)
    (dir : DirPath) (fs : FS) (h : normalizePwd pwd = pw) :
    pfx_to_pem (ArchiveBytes.valid k c pw) pwd dir fs =
      (Except.ok (dir, ⟨"private_", fs.freshCounter, ".pem"⟩),
       { dirs := fs.dirs,
         files := ((dir, ⟨"private_", fs.freshCounter, ".pem"⟩),
                   SerializedBytes.privBytes k EncodingT.PEM
                     PrivateFormatT.TraditionalOpenSSL EncAlgT.NoEncryption) :: fs.files }) := by
  subst h
  have hmap := map_write_id fs.files (dir, ⟨"private_", fs.freshCounter, ".pem"⟩)
    (SerializedBytes.privBytes k EncodingT.PEM PrivateFormatT.TraditionalOpenSSL
      EncAlgT.NoEncryption)
    (fresh_not_mem fs dir "private_" ".pem")
  simp [pfx_to_pem, namedTempFile, load_key_and_certificates, FS.writeFile,
    PrivKey.private_bytes, hmap]

/-- `pfx_to_pem` on a valid archive and a wrong passphrase: the PKCS#12
load raises `ValueError`, but the `delete=False` temp file created
before the load stays on disk, empty. -/
theorem pfx_to_pem_err (k : PrivKey) (c : Cert) (pw : List Nat) (pwd : PwdInput)
    (dir : DirPath) (fs : FS) (h : normalizePwd pwd ≠ pw) :
    pfx_to_pem (ArchiveBytes.valid k c pw) pwd dir fs =
      (Except.error pkcs12PwdError,
       { dirs := fs.dirs,
         files := ((dir, ⟨"private_", fs.freshCounter, ".pem"⟩),
                   SerializedBytes.empty) :: fs.files }) := by
  unfold pfx_to_pem namedTempFile load_key_and_certificates
  simp only [if_neg h]

/-- `pfx_to_crt` on a valid archive and the matching passphrase: yields the
fresh `public_*.crt` path and writes the certificate as PEM. -/
theorem pfx_to_crt_ok (k : PrivKey) (c : Cert) (pw : List Nat) (pwd : PwdInput)
    (dir : DirPath) (fs : FS) (h : normalizePwd pwd = pw) :
    pfx_to_crt (ArchiveBytes.valid k c pw) pwd dir fs =
      (Except.ok (dir, ⟨"public_", fs.freshCounter, ".crt"⟩),
       { dirs := fs.dirs,
         files := ((dir, ⟨"public_", fs.freshCounter, ".crt"⟩),
                   SerializedBytes.certBytes c EncodingT.PEM) :: fs.files }) := by
  subst h
  have hmap := map_write_id fs.files (dir, ⟨"public_", fs.freshCounter, ".crt"⟩)
    (SerializedBytes.certBytes c EncodingT.PEM)
    (fresh_not_mem fs dir "public_" ".crt")
  simp [pfx_to_crt, namedTempFile, load_key_and_certificates, FS.writeFile,
    Cert.public_bytes, hmap]

/-- `pfx_to_crt` on a valid archive and a wrong passphrase: `ValueError`,
with the empty `public_*.crt` temp file left behind. -/
theorem pfx_to_crt_err (k : PrivKey) (c : Cert) (pw : List Nat) (pwd : PwdInput)
    (dir : DirPath) (fs : FS) (h : normalizePwd pwd ≠ pw) :
    pfx_to_crt (ArchiveBytes.valid k c pw) pwd dir fs =
      (Except.error pkcs12PwdError,
       { dirs := fs.dirs,
         files := ((dir, ⟨"public_", fs.freshCounter, ".crt"⟩),
                   SerializedBytes.empty) :: fs.files }) := by
  unfold pfx_to_crt namedTempFile load_key_and_certificates
  simp only [if_neg h]

/-! ### Concrete sample inputs for witnesses -/

/-- A sample private key. -/
def sampleKey : PrivKey := { keyId := 1 }

/-- A sample leaf certificate. -/
def sampleCert : Cert := { certId := 2 }

/-- The byte form of the sample passphrase `"secret123"`. -/
def samplePwdBytes : List Nat := strToBytes "secret123"

/-- A valid sample PKCS#12 archive protected by `"secret123"`. -/
def sampleArchive : ArchiveBytes := ArchiveBytes.valid sampleKey sampleCert samplePwdBytes

/-- An empty filesystem. -/
def emptyFS : FS := { dirs := [], files := [] }

/-- A sample certificate record holding the sample archive. -/
def sampleRecord : CertRecord :=
  { folder := "f", file := B64Field.enc sampleArchive, private_key := none,
    public_key := none }

/-! ### C1 -/

/-- C1 counterexample: the claim says a wrong passphrase makes the decode
step fail with no files created on disk; at this concrete input the
decode does fail with the decryption `ValueError`, but the invocation has
already created one (empty) `private_*.pem` temp file, which
`delete=False` leaves on disk — so "no files are created" is false. -/
theorem C1_counterexample :
    (pfx_to_pem sampleArchive (PwdInput.str "wrong") ["d"] emptyFS).1 =
        Except.error pkcs12PwdError
    ∧ (pfx_to_pem sampleArchive (PwdInput.str "wrong") ["d"] emptyFS).2.files.length = 1 := by
  exact ⟨rfl, rfl⟩

/-- C1 (amended): for every valid archive and an incorrect passphrase, the
decode step fails with the decryption `ValueError`, no key or certificate
material is written, and exactly one empty temporary file
(`private_*.pem` for `pfx_to_pem`, `public_*.crt` for `pfx_to_crt`)
is left on disk by the invocation. -/
theorem C1_wrong_passphrase (k : PrivKey) (c : Cert) (pw : List Nat) (pwd : PwdInput)
    (dir : DirPath) (fs : FS) (h : normalizePwd pwd ≠ pw) :
    (pfx_to_pem (ArchiveBytes.valid k c pw) pwd dir fs).1 = Except.error pkcs12PwdError
    ∧ (pfx_to_pem (ArchiveBytes.valid k c pw) pwd dir fs).2.files =
        ((dir, ⟨"private_", fs.freshCounter, ".pem"⟩), SerializedBytes.empty) :: fs.files
    ∧ (pfx_to_crt (ArchiveBytes.valid k c pw) pwd dir fs).1 = Except.error pkcs12PwdError
    ∧ (pfx_to_crt (ArchiveBytes.valid k c pw) pwd dir fs).2.files =
        ((dir, ⟨"public_", fs.freshCounter, ".crt"⟩), SerializedBytes.empty) :: fs.files := by
  rw [pfx_to_pem_err k c pw pwd dir fs h, pfx_to_crt_err k c pw pwd dir fs h]
  exact ⟨rfl, rfl, rfl, rfl⟩

/-- C1 witness: the amended statement at the sample archive with
passphrase `"wrong"`. -/
theorem C1_wrong_passphrase_witness :
    (pfx_to_pem sampleArchive (PwdInput.str "wrong") ["d"] emptyFS).1 =
        Except.error pkcs12PwdError
    ∧ (pfx_to_pem sampleArchive (PwdInput.str "wrong") ["d"] emptyFS).2.files =
        (((["d"], ⟨"private_", emptyFS.freshCounter, ".pem"⟩), SerializedBytes.empty) :
          FPath × SerializedBytes) :: emptyFS.files
    ∧ (pfx_to_crt sampleArchive (PwdInput.str "wrong") ["d"] emptyFS).1 =
        Except.error pkcs12PwdError
    ∧ (pfx_to_crt sampleArchive (PwdInput.str "wrong") ["d"] emptyFS).2.files =
        (((["d"], ⟨"public_", emptyFS.freshCounter, ".crt"⟩), SerializedBytes.empty) :
          FPath × SerializedBytes) :: emptyFS.files :=
  C1_wrong_passphrase sampleKey sampleCert samplePwdBytes (PwdInput.str "wrong") ["d"]
    emptyFS (by decide)

/-! ### C2 -/

/-- C2 counterexample: the claim says every exception caught in the
`try` block of `get_keys` is re-raised as a `ValidationError`; an
exception whose `args` tuple is empty instead makes the handler fail
with `UnboundLocalError`, because `args` is only assigned under
`if e.args:`. -/
theorem C2_counterexample :
    (handleExc { kind := "Exception", args := [] }).kind ≠ "ValidationError"
    ∧ (handleExc { kind := "Exception", args := [] }).kind = "UnboundLocalError" := by
  exact ⟨by decide, rfl⟩

/-- C2 (amended): every exception raised inside the `try` block of
`get_keys` whose `args` tuple is non-empty is caught and re-raised as a
single `ValidationError` whose message is the last element of the caught
exception's `args` tuple (an empty `args` tuple instead triggers
`UnboundLocalError`, see C9). -/
theorem C2_validation_wrap (data_dir : DirPath) (series dbname : String)
    (record : CertRecord) (password cryptoVersion : String) (interfere : FS → FS)
    (fs : FS) (vt : List Int) (e : PyExc) (a : PyVal) (fs1 : FS) (record1 : CertRecord)
    (hv : pyVersionTuple cryptoVersion = Except.ok vt)
    (hge : tupleLt vt [3, 0] = false)
    (htry : tryBlock (decodebytes record.file) password
        (certDirectory data_dir series dbname record.folder) record interfere fs =
        (Except.error e, fs1, record1))
    (hl : e.args.getLast? = some a) :
    get_keys data_dir series dbname record password cryptoVersion interfere fs =
      { outcome := Except.error { kind := "ValidationError", args := [a] },
        fs := fs1, record := record1 } := by
  simp [get_keys, hv, hge, htry, handleExc, hl]

/-- C2 witness: the amended statement at the sample archive with the wrong
passphrase `"wrong"`: the PKCS#12 `ValueError` escaping the `try` block
is re-raised as `ValidationError` with its last (only) argument. -/
theorem C2_validation_wrap_witness :
    get_keys ["data"] "15.0" "db" sampleRecord "wrong" "3.4.8" id emptyFS =
      { outcome := Except.error
          { kind := "ValidationError",
            args := [PyVal.str "Invalid password or PKCS12 data"] },
        fs := { dirs := [["data"], ["data", "certificates"],
                  ["data", "certificates", "15.0"],
                  ["data", "certificates", "15.0", "db"],
                  ["data", "certificates", "15.0", "db", "f"]],
                files := [((["data", "certificates", "15.0", "db", "f"],
                    ⟨"private_", 1, ".pem"⟩), SerializedBytes.empty)] },
        record := sampleRecord } :=
  C2_validation_wrap ["data"] "15.0" "db" sampleRecord "wrong" "3.4.8" id emptyFS
    [3, 4, 8] pkcs12PwdError (PyVal.str "Invalid password or PKCS12 data")
    { dirs := [["data"], ["data", "certificates"], ["data", "certificates", "15.0"],
        ["data", "certificates", "15.0", "db"],
        ["data", "certificates", "15.0", "db", "f"]],
      files := [((["data", "certificates", "15.0", "db", "f"],
          ⟨"private_", 1, ".pem"⟩), SerializedBytes.empty)] }
    sampleRecord (by rfl) (by rfl) (by rfl) (by rfl)

/-! ### C9 -/

/-- C9: if the exception caught at the orchestration boundary of `get_keys`
has an empty `args` tuple, the handler does not produce a
`ValidationError`: the local `args` is only assigned under `if e.args:`,
so the re-raise line fails with `UnboundLocalError`. -/
theorem C9_unbound_local (e : PyExc) (h : e.args = []) :
    handleExc e =
      { kind := "UnboundLocalError",
        args := [PyVal.str "local variable args referenced before assignment"] }
    ∧ (handleExc e).kind ≠ "ValidationError" := by
  have he : handleExc e =
      { kind := "UnboundLocalError",
        args := [PyVal.str "local variable args referenced before assignment"] } := by
    simp [handleExc, h]
  exact ⟨he, by rw [he]; decide⟩

/-- C9 witness: the empty-`args` exception value. -/
theorem C9_unbound_local_witness :
    handleExc { kind := "Exception", args := [] } =
      { kind := "UnboundLocalError",
        args := [PyVal.str "local variable args referenced before assignment"] }
    ∧ (handleExc { kind := "Exception", args := [] }).kind ≠ "ValidationError" :=
  C9_unbound_local { kind := "Exception", args := [] } rfl

/-! ### C3 -/

/-- C3: when the installed cryptography version parses below `(3, 0)`,
`get_keys` raises `UserError` with the upgrade message, for every
archive and passphrase, and the filesystem and the record are exactly as
before the call: no directory is created and no file is written. -/
theorem C3_version_floor (data_dir : DirPath) (series dbname : String)
    (record : CertRecord) (password cryptoVersion : String) (interfere : FS → FS)
    (fs : FS) (vt : List Int)
    (hv : pyVersionTuple cryptoVersion = Except.ok vt)
    (hlt : tupleLt vt [3, 0] = true) :
    get_keys data_dir series dbname record password cryptoVersion interfere fs =
      { outcome := Except.error
          { kind := "UserError",
            args := [PyVal.str
              "Cryptography version is not supported. Upgrade to 3.0.0 or greater."] },
        fs := fs, record := record } := by
  simp [get_keys, hv, hlt]

/-- C3 witness: cryptography 2.9.2 with a valid archive and its correct
passphrase still fails with `UserError`, touching nothing. -/
theorem C3_version_floor_witness :
    get_keys ["data"] "15.0" "db" sampleRecord "secret123" "2.9.2" id emptyFS =
      { outcome := Except.error
          { kind := "UserError",
            args := [PyVal.str
              "Cryptography version is not supported. Upgrade to 3.0.0 or greater."] },
        fs := emptyFS, record := sampleRecord } :=
  C3_version_floor ["data"] "15.0" "db" sampleRecord "secret123" "2.9.2" id emptyFS
    [2, 9, 2] (by rfl) (by rfl)

/-! ### C4 -/

/-- Composition of the two decode-and-write steps on a valid archive with
the matching passphrase: the certificate write happens on the filesystem
the key write produced, so its unique token is one further on. -/
theorem pem_then_crt (k : PrivKey) (c : Cert) (pw : List Nat) (pwd : PwdInput)
    (dir : DirPath) (fs : FS) (h : normalizePwd pwd = pw) :
    pfx_to_crt (ArchiveBytes.valid k c pw) pwd dir
        (pfx_to_pem (ArchiveBytes.valid k c pw) pwd dir fs).2 =
      (Except.ok (dir, ⟨"public_", fs.maxCounter + 2, ".crt"⟩),
       { dirs := fs.dirs,
         files := ((dir, ⟨"public_", fs.maxCounter + 2, ".crt"⟩),
                   SerializedBytes.certBytes c EncodingT.PEM) ::
                  ((dir, ⟨"private_", fs.maxCounter + 1, ".pem"⟩),
                   SerializedBytes.privBytes k EncodingT.PEM
                     PrivateFormatT.TraditionalOpenSSL EncAlgT.NoEncryption) :: fs.files }) := by
  rw [pfx_to_pem_ok k c pw pwd dir fs h]
  rw [pfx_to_crt_ok k c pw pwd dir _ h]
  simp only [FS.freshCounter, FS.maxCounter, List.foldr_cons]
  rw [Nat.max_eq_left (Nat.le_succ _)]

/-- C4: for every valid PKCS#12 archive and its correct passphrase, the
decode-and-write steps for the key and then the certificate both
succeed, exactly two files are added, and reparsing each written file as
PEM yields the key and the certificate contained in the archive. -/
theorem C4_roundtrip (k : PrivKey) (c : Cert) (pw : List Nat) (pwd : PwdInput)
    (dir : DirPath) (fs : FS) (h : normalizePwd pwd = pw) :
    ∃ p1 p2 : FPath,
      (pfx_to_pem (ArchiveBytes.valid k c pw) pwd dir fs).1 = Except.ok p1
      ∧ (pfx_to_crt (ArchiveBytes.valid k c pw) pwd dir
            (pfx_to_pem (ArchiveBytes.valid k c pw) pwd dir fs).2).1 = Except.ok p2
      ∧ ((pfx_to_crt (ArchiveBytes.valid k c pw) pwd dir
            (pfx_to_pem (ArchiveBytes.valid k c pw) pwd dir fs).2).2).files.length =
          fs.files.length + 2
      ∧ (((pfx_to_crt (ArchiveBytes.valid k c pw) pwd dir
            (pfx_to_pem (ArchiveBytes.valid k c pw) pwd dir fs).2).2).readFile p1).bind
          load_pem_private_key = some k
      ∧ (((pfx_to_crt (ArchiveBytes.valid k c pw) pwd dir
            (pfx_to_pem (ArchiveBytes.valid k c pw) pwd dir fs).2).2).readFile p2).bind
          load_pem_x509_certificate = some c := by
  have hne : ((dir, ⟨"public_", fs.maxCounter + 2, ".crt"⟩) : FPath) ≠
      (dir, ⟨"private_", fs.maxCounter + 1, ".pem"⟩) := by
    intro heq
    have hpfx : ("public_" : String) = "private_" :=
      congrArg (fun x : FPath => x.2.pfx) heq
    exact absurd hpfx (by decide)
  refine ⟨(dir, ⟨"private_", fs.maxCounter + 1, ".pem"⟩),
          (dir, ⟨"public_", fs.maxCounter + 2, ".crt"⟩), ?_, ?_, ?_, ?_, ?_⟩
  · rw [pfx_to_pem_ok k c pw pwd dir fs h]
    rfl
  · rw [pem_then_crt k c pw pwd dir fs h]
  · rw [pem_then_crt k c pw pwd dir fs h]
    simp
  · rw [pem_then_crt k c pw pwd dir fs h]
    rw [readFile_cons_ne _ _ _ _ _ hne, readFile_cons_self]
    rfl
  · rw [pem_then_crt k c pw pwd dir fs h]
    rw [readFile_cons_self]
    rfl

/-- C4 witness: the round-trip at the sample archive and passphrase
`"secret123"`. -/
theorem C4_roundtrip_witness :
    ∃ p1 p2 : FPath,
      (pfx_to_pem sampleArchive (PwdInput.str "secret123") ["d"] emptyFS).1 = Except.ok p1
      ∧ (pfx_to_crt sampleArchive (PwdInput.str "secret123") ["d"]
            (pfx_to_pem sampleArchive (PwdInput.str "secret123") ["d"] emptyFS).2).1 =
          Except.ok p2
      ∧ ((pfx_to_crt sampleArchive (PwdInput.str "secret123") ["d"]
            (pfx_to_pem sampleArchive (PwdInput.str "secret123") ["d"] emptyFS).2).2).files.length =
          emptyFS.files.length + 2
      ∧ (((pfx_to_crt sampleArchive (PwdInput.str "secret123") ["d"]
            (pfx_to_pem sampleArchive (PwdInput.str "secret123") ["d"] emptyFS).2).2).readFile
            p1).bind load_pem_private_key = some sampleKey
      ∧ (((pfx_to_crt sampleArchive (PwdInput.str "secret123") ["d"]
            (pfx_to_pem sampleArchive (PwdInput.str "secret123") ["d"] emptyFS).2).2).readFile
            p2).bind load_pem_x509_certificate = some sampleCert :=
  C4_roundtrip sampleKey sampleCert samplePwdBytes (PwdInput.str "secret123") ["d"]
    emptyFS rfl

/-! ### C6 -/

/-- C6: on every successful decode, the file `pfx_to_pem` wrote holds the
private key serialized as PEM in TraditionalOpenSSL format with
`NoEncryption` (the archive's own encryption stripped), and the file
`pfx_to_crt` wrote holds the certificate serialized as standard PEM. -/
theorem C6_serialization (k : PrivKey) (c : Cert) (pw : List Nat) (pwd : PwdInput)
    (dir : DirPath) (fs : FS) (p q : FPath) (h : normalizePwd pwd = pw)
    (hp : (pfx_to_pem (ArchiveBytes.valid k c pw) pwd dir fs).1 = Except.ok p)
    (hq : (pfx_to_crt (ArchiveBytes.valid k c pw) pwd dir fs).1 = Except.ok q) :
    ((pfx_to_pem (ArchiveBytes.valid k c pw) pwd dir fs).2).readFile p =
      some (PrivKey.private_bytes k EncodingT.PEM PrivateFormatT.TraditionalOpenSSL
        EncAlgT.NoEncryption)
    ∧ ((pfx_to_crt (ArchiveBytes.valid k c pw) pwd dir fs).2).readFile q =
      some (Cert.public_bytes c EncodingT.PEM) := by
  rw [pfx_to_pem_ok k c pw pwd dir fs h] at hp
  rw [pfx_to_crt_ok k c pw pwd dir fs h] at hq
  obtain rfl : (dir, (⟨"private_", fs.freshCounter, ".pem"⟩ : TmpName)) = p := by
    simpa using hp
  obtain rfl : (dir, (⟨"public_", fs.freshCounter, ".crt"⟩ : TmpName)) = q := by
    simpa using hq
  rw [pfx_to_pem_ok k c pw pwd dir fs h, pfx_to_crt_ok k c pw pwd dir fs h]
  exact ⟨readFile_cons_self _ _ _ _, readFile_cons_self _ _ _ _⟩

/-- C6 witness: the serialization formats at the sample archive. -/
theorem C6_serialization_witness :
    ((pfx_to_pem sampleArchive (PwdInput.str "secret123") ["d"] emptyFS).2).readFile
        (["d"], ⟨"private_", 1, ".pem"⟩) =
      some (PrivKey.private_bytes sampleKey EncodingT.PEM
        PrivateFormatT.TraditionalOpenSSL EncAlgT.NoEncryption)
    ∧ ((pfx_to_crt sampleArchive (PwdInput.str "secret123") ["d"] emptyFS).2).readFile
        (["d"], ⟨"public_", 1, ".crt"⟩) =
      some (Cert.public_bytes sampleCert EncodingT.PEM) :=
  C6_serialization sampleKey sampleCert samplePwdBytes (PwdInput.str "secret123") ["d"]
    emptyFS (["d"], ⟨"private_", 1, ".pem"⟩) (["d"], ⟨"public_", 1, ".crt"⟩) rfl
    (by rfl) (by rfl)

/-! ### C7 -/

/-- C7: on every successful invocation the key artifact's name is
`private_<token>.pem` and the certificate artifact's name is
`public_<token>.crt`; each created path is absent from the filesystem as
it was just before its creation (so prior or concurrent files are never
overwritten), and the two artifacts of one invocation are distinct. -/
theorem C7_unique_names (k : PrivKey) (c : Cert) (pw : List Nat) (pwd : PwdInput)
    (dir : DirPath) (fs : FS) (h : normalizePwd pwd = pw) :
    ∃ p1 p2 : FPath,
      (pfx_to_pem (ArchiveBytes.valid k c pw) pwd dir fs).1 = Except.ok p1
      ∧ (pfx_to_crt (ArchiveBytes.valid k c pw) pwd dir
            (pfx_to_pem (ArchiveBytes.valid k c pw) pwd dir fs).2).1 = Except.ok p2
      ∧ p1.2.pfx = "private_" ∧ p1.2.sfx = ".pem"
      ∧ p1.2.render = "private_" ++ toString p1.2.counter ++ ".pem"
      ∧ p2.2.pfx = "public_" ∧ p2.2.sfx = ".crt"
      ∧ p2.2.render = "public_" ++ toString p2.2.counter ++ ".crt"
      ∧ (∀ f ∈ fs.files, f.1 ≠ p1)
      ∧ (∀ f ∈ ((pfx_to_pem (ArchiveBytes.valid k c pw) pwd dir fs).2).files, f.1 ≠ p2)
      ∧ p1 ≠ p2 := by
  refine ⟨(dir, ⟨"private_", fs.maxCounter + 1, ".pem"⟩),
          (dir, ⟨"public_", fs.maxCounter + 2, ".crt"⟩),
          ?_, ?_, rfl, rfl, rfl, rfl, rfl, rfl, ?_, ?_, ?_⟩
  · rw [pfx_to_pem_ok k c pw pwd dir fs h]
    rfl
  · rw [pem_then_crt k c pw pwd dir fs h]
  · exact fresh_not_mem fs dir "private_" ".pem"
  · rw [pfx_to_pem_ok k c pw pwd dir fs h]
    have hmem := fresh_not_mem
      { dirs := fs.dirs,
        files := ((dir, ⟨"private_", fs.freshCounter, ".pem"⟩),
          SerializedBytes.privBytes k EncodingT.PEM PrivateFormatT.TraditionalOpenSSL
            EncAlgT.NoEncryption) :: fs.files } dir "public_" ".crt"
    have hctr : FS.freshCounter
        { dirs := fs.dirs,
          files := ((dir, ⟨"private_", fs.freshCounter, ".pem"⟩),
            SerializedBytes.privBytes k EncodingT.PEM PrivateFormatT.TraditionalOpenSSL
              EncAlgT.NoEncryption) :: fs.files } = fs.maxCounter + 2 := by
      simp only [FS.freshCounter, FS.maxCounter, List.foldr_cons]
      rw [Nat.max_eq_left (Nat.le_succ _)]
    rw [hctr] at hmem
    exact hmem
  · intro heq
    have hpfx : ("private_" : String) = "public_" :=
      congrArg (fun x : FPath => x.2.pfx) heq
    exact absurd hpfx (by decide)

/-- C7 witness: the naming and uniqueness facts at the sample archive. -/
theorem C7_unique_names_witness :
    ∃ p1 p2 : FPath,
      (pfx_to_pem sampleArchive (PwdInput.str "secret123") ["d"] emptyFS).1 = Except.ok p1
      ∧ (pfx_to_crt sampleArchive (PwdInput.str "secret123") ["d"]
            (pfx_to_pem sampleArchive (PwdInput.str "secret123") ["d"] emptyFS).2).1 =
          Except.ok p2
      ∧ p1.2.pfx = "private_" ∧ p1.2.sfx = ".pem"
      ∧ p1.2.render = "private_" ++ toString p1.2.counter ++ ".pem"
      ∧ p2.2.pfx = "public_" ∧ p2.2.sfx = ".crt"
      ∧ p2.2.render = "public_" ++ toString p2.2.counter ++ ".crt"
      ∧ (∀ f ∈ emptyFS.files, f.1 ≠ p1)
      ∧ (∀ f ∈ ((pfx_to_pem sampleArchive (PwdInput.str "secret123") ["d"] emptyFS).2).files,
          f.1 ≠ p2)
      ∧ p1 ≠ p2 :=
  C7_unique_names sampleKey sampleCert samplePwdBytes (PwdInput.str "secret123") ["d"]
    emptyFS rfl

/-! ### C8 -/

/-- `extractBoth` on a valid archive with the matching passphrase: both
writes succeed, two files are added, and the record gets both paths. -/
theorem extractBoth_ok (k : PrivKey) (c : Cert) (password : String)
    (directory : DirPath) (record : CertRecord) (fs : FS) :
    extractBoth (ArchiveBytes.valid k c (strToBytes password)) password directory record
        fs =
      (Except.ok (),
       { dirs := fs.dirs,
         files := ((directory, ⟨"public_", fs.maxCounter + 2, ".crt"⟩),
                   SerializedBytes.certBytes c EncodingT.PEM) ::
                  ((directory, ⟨"private_", fs.maxCounter + 1, ".pem"⟩),
                   SerializedBytes.privBytes k EncodingT.PEM
                     PrivateFormatT.TraditionalOpenSSL EncAlgT.NoEncryption) :: fs.files },
       { record with
         private_key := some (directory, ⟨"private_", fs.maxCounter + 1, ".pem"⟩),
         public_key := some (directory, ⟨"public_", fs.maxCounter + 2, ".crt"⟩) }) := by
  have h1 := pfx_to_pem_ok k c (strToBytes password) (PwdInput.str password) directory
    fs rfl
  have h2 := pfx_to_crt_ok k c (strToBytes password) (PwdInput.str password) directory
    { dirs := fs.dirs,
      files := ((directory, ⟨"private_", fs.freshCounter, ".pem"⟩),
        SerializedBytes.privBytes k EncodingT.PEM PrivateFormatT.TraditionalOpenSSL
          EncAlgT.NoEncryption) :: fs.files } rfl
  have hctr : FS.freshCounter
      { dirs := fs.dirs,
        files := ((directory, ⟨"private_", fs.freshCounter, ".pem"⟩),
          SerializedBytes.privBytes k EncodingT.PEM PrivateFormatT.TraditionalOpenSSL
            EncAlgT.NoEncryption) :: fs.files } = fs.maxCounter + 2 := by
    simp only [FS.freshCounter, FS.maxCounter, List.foldr_cons]
    rw [Nat.max_eq_left (Nat.le_succ _)]
  rw [hctr] at h2
  simp only [extractBoth, h1, afterPem, h2]
  rfl

/-- `tryBlock` when the target directory is absent and nothing interferes:
`makedirs` adds the missing prefixes and extraction runs on the grown
filesystem. -/
theorem tryBlock_makedirs (file : ArchiveBytes) (password : String)
    (directory : DirPath) (record : CertRecord) (fs : FS)
    (hne : directory ≠ []) (hnm : directory ∉ fs.dirs) :
    tryBlock file password directory record id fs =
      extractBoth file password directory record
        { fs with
          dirs := fs.dirs ++
            ((nonemptyPrefixes directory).filter (fun q => decide (q ∉ fs.dirs))) } := by
  simp only [tryBlock, id_eq]
  rw [if_pos (show directory ≠ [] ∧ directory ∉ fs.dirs from ⟨hne, hnm⟩)]
  unfold makedirs
  rw [if_neg hnm]

/-- `tryBlock` when the target directory already exists: the `makedirs`
branch is skipped and extraction runs on the unchanged filesystem. -/
theorem tryBlock_dir_exists (file : ArchiveBytes) (password : String)
    (directory : DirPath) (record : CertRecord) (fs : FS)
    (hmem : directory ∈ fs.dirs) :
    tryBlock file password directory record id fs =
      extractBoth file password directory record fs := by
  simp only [tryBlock, id_eq]
  rw [if_neg (fun hand => hand.2 hmem)]

/-- A successful `try` block makes `get_keys` return its outcome
unchanged (no exception reaches the `except` clause). -/
theorem get_keys_of_try (data_dir : DirPath) (series dbname : String)
    (record : CertRecord) (password cryptoVersion : String) (interfere : FS → FS)
    (fs : FS) (vt : List Int) (fs1 : FS) (record1 : CertRecord)
    (hv : pyVersionTuple cryptoVersion = Except.ok vt)
    (hge : tupleLt vt [3, 0] = false)
    (htry : tryBlock (decodebytes record.file) password
        (certDirectory data_dir series dbname record.folder) record interfere fs =
        (Except.ok (), fs1, record1)) :
    get_keys data_dir series dbname record password cryptoVersion interfere fs =
      { outcome := Except.ok (), fs := fs1, record := record1 } := by
  simp [get_keys, hv, hge, htry]

/-- After `makedirs`, every nonempty prefix of the requested path is
present. -/
theorem mem_dirs_after_makedirs (fs : FS) (p q : DirPath)
    (hq : q ∈ nonemptyPrefixes p) :
    q ∈ fs.dirs ++ (nonemptyPrefixes p).filter (fun r => decide (r ∉ fs.dirs)) := by
  by_cases hmem : q ∈ fs.dirs
  · exact List.mem_append_left _ hmem
  · refine List.mem_append_right _ ?_
    rw [List.mem_filter]
    exact ⟨hq, decide_eq_true hmem⟩

/-- C8: the target directory is
`<data_dir>/certificates/<release.series>/<dbname>/<record.folder>`; when
it does not exist, a successful invocation creates it together with all
missing ancestors; an invocation against an already-existing directory
does not fail. -/
theorem C8_directory_layout (data_dir : DirPath) (series dbname : String)
    (record : CertRecord) (password cryptoVersion : String) (fs : FS) (vt : List Int)
    (k : PrivKey) (c : Cert)
    (hv : pyVersionTuple cryptoVersion = Except.ok vt)
    (hge : tupleLt vt [3, 0] = false)
    (harch : decodebytes record.file = ArchiveBytes.valid k c (strToBytes password)) :
    certDirectory data_dir series dbname record.folder =
        data_dir ++ ["certificates", series, dbname, record.folder]
    ∧ (certDirectory data_dir series dbname record.folder ∉ fs.dirs →
        (get_keys data_dir series dbname record password cryptoVersion id fs).outcome =
          Except.ok ()
        ∧ ∀ q ∈ nonemptyPrefixes (certDirectory data_dir series dbname record.folder),
            q ∈ (get_keys data_dir series dbname record password cryptoVersion id
              fs).fs.dirs)
    ∧ (certDirectory data_dir series dbname record.folder ∈ fs.dirs →
        (get_keys data_dir series dbname record password cryptoVersion id fs).outcome =
          Except.ok ()) := by
  have hdirne : certDirectory data_dir series dbname record.folder ≠ [] := by
    simp [certDirectory]
  refine ⟨rfl, ?_, ?_⟩
  · intro hnm
    have htry := tryBlock_makedirs (decodebytes record.file) password
      (certDirectory data_dir series dbname record.folder) record fs hdirne hnm
    have hext := extractBoth_ok k c password
      (certDirectory data_dir series dbname record.folder) record
      { fs with
        dirs := fs.dirs ++
          ((nonemptyPrefixes
            (certDirectory data_dir series dbname record.folder)).filter
            (fun q => decide (q ∉ fs.dirs))) }
    rw [← harch] at hext
    have hgk := get_keys_of_try data_dir series dbname record password cryptoVersion id
      fs vt _ _ hv hge (htry.trans hext)
    rw [hgk]
    refine ⟨rfl, ?_⟩
    intro q hq
    exact mem_dirs_after_makedirs fs _ q hq
  · intro hmem
    have htry := tryBlock_dir_exists (decodebytes record.file) password
      (certDirectory data_dir series dbname record.folder) record fs hmem
    have hext := extractBoth_ok k c password
      (certDirectory data_dir series dbname record.folder) record fs
    rw [← harch] at hext
    have hgk := get_keys_of_try data_dir series dbname record password cryptoVersion id
      fs vt _ _ hv hge (htry.trans hext)
    rw [hgk]

/-- C8 witness: the directory facts at the sample record, on an empty
filesystem and on a filesystem already holding the target directory. -/
theorem C8_directory_layout_witness :
    certDirectory ["data"] "15.0" "db" sampleRecord.folder =
        ["data"] ++ ["certificates", "15.0", "db", sampleRecord.folder]
    ∧ (certDirectory ["data"] "15.0" "db" sampleRecord.folder ∉ emptyFS.dirs →
        (get_keys ["data"] "15.0" "db" sampleRecord "secret123" "3.4.8" id
            emptyFS).outcome = Except.ok ()
        ∧ ∀ q ∈ nonemptyPrefixes (certDirectory ["data"] "15.0" "db" sampleRecord.folder),
            q ∈ (get_keys ["data"] "15.0" "db" sampleRecord "secret123" "3.4.8" id
              emptyFS).fs.dirs)
    ∧ (certDirectory ["data"] "15.0" "db" sampleRecord.folder ∈ emptyFS.dirs →
        (get_keys ["data"] "15.0" "db" sampleRecord "secret123" "3.4.8" id
            emptyFS).outcome = Except.ok ()) :=
  C8_directory_layout ["data"] "15.0" "db" sampleRecord "secret123" "3.4.8" emptyFS
    [3, 4, 8] sampleKey sampleCert (by rfl) (by rfl) rfl

/-! ### C5 -/

/-- The filesystem activity of a concurrent invocation that creates the
same target directory inside the race window between the
`os.path.exists` check and the `os.makedirs` call. -/
def raceInterfere (d : DirPath) : FS → FS :=
  fun fs => { fs with dirs := d :: fs.dirs }

/-- C5: when the target directory comes into existence between the
existence check and `os.makedirs` (a benign race with a concurrent
invocation), `os.makedirs` raises `FileExistsError`, which the broad
handler converts into `ValidationError("File exists")`: the invocation
fails, contradicting the claim that the race is tolerated. -/
theorem C5_race_not_tolerated :
    (get_keys ["data"] "15.0" "db" sampleRecord "secret123" "3.4.8"
        (raceInterfere (certDirectory ["data"] "15.0" "db" "f")) emptyFS).outcome =
      Except.error { kind := "ValidationError", args := [PyVal.str "File exists"] } := by
  rfl

/-! ### C10 -/

/-- Every failure of the modelled `int(s)` is a `ValueError`. -/
theorem pyIntOfString_err_kind (s : String) (e : PyExc)
    (h : pyIntOfString s = Except.error e) : e.kind = "ValueError" := by
  simp only [pyIntOfString] at h
  split at h
  · simp at h
  · injection h with h
    rw [← h]

/-- If some component of the list fails integer conversion, the whole
left-to-right conversion fails with a `ValueError`. -/
theorem exceptMapInt_err_of_mem (l : List String) (s : String) (ebad : PyExc)
    (hs : s ∈ l) (hbad : pyIntOfString s = Except.error ebad) :
    ∃ e, exceptMapInt l = Except.error e ∧ e.kind = "ValueError" := by
  induction l with
  | nil => cases hs
  | cons a rest ih =>
      rcases List.mem_cons.mp hs with hs | hs
      · subst hs
        exact ⟨ebad, by simp [exceptMapInt, hbad], pyIntOfString_err_kind s ebad hbad⟩
      · cases hA : pyIntOfString a with
        | error e =>
            exact ⟨e, by simp [exceptMapInt, hA], pyIntOfString_err_kind a e hA⟩
        | ok n =>
            obtain ⟨e, he, hk⟩ := ih hs
            exact ⟨e, by simp [exceptMapInt, hA, he], hk⟩

/-- C10: the version guard converts every dot-separated component of the
cryptography version string with `int(...)`; a non-numeric component
makes the guard expression raise `ValueError` instead of producing a
verdict, and the same `ValueError` escapes `get_keys` unhandled (it is
raised before the `try` block), touching neither the filesystem nor the
record. -/
theorem C10_version_parse (v comp : String) (ebad : PyExc) (data_dir : DirPath)
    (series dbname : String) (record : CertRecord) (password : String)
    (interfere : FS → FS) (fs : FS)
    (hc : comp ∈ splitOnDot v) (hbad : pyIntOfString comp = Except.error ebad) :
    ∃ e : PyExc, e.kind = "ValueError"
      ∧ cryptoVersionVerdict v = Except.error e
      ∧ get_keys data_dir series dbname record password v interfere fs =
          { outcome := Except.error e, fs := fs, record := record } := by
  obtain ⟨e, he, hk⟩ := exceptMapInt_err_of_mem (splitOnDot v) comp ebad hc hbad
  refine ⟨e, hk, ?_, ?_⟩
  · simp [cryptoVersionVerdict, pyVersionTuple, he]
  · simp [get_keys, pyVersionTuple, he]

/-- C10 witness: the pre-release version string `"3.0.0.dev1"`. -/
theorem C10_version_parse_witness :
    ∃ e : PyExc, e.kind = "ValueError"
      ∧ cryptoVersionVerdict "3.0.0.dev1" = Except.error e
      ∧ get_keys ["data"] "15.0" "db" sampleRecord "secret123" "3.0.0.dev1" id emptyFS =
          { outcome := Except.error e, fs := emptyFS, record := sampleRecord } :=
  C10_version_parse "3.0.0.dev1" "dev1"
    { kind := "ValueError",
      args := [PyVal.str "invalid literal for int() with base 10: dev1"] }
    ["data"] "15.0" "db" sampleRecord "secret123" id emptyFS (by decide) (by rfl)
